/-
Verification of the SnapQuizzer OCR MCQ parsing core.

The definitions below are a shallow embedding of the Python sources:
  * backend/app/ocr.py            (OCRService.parse_mcq, the elaborate parser)
  * backend/app/ocr_processor.py  (OCRProcessor.detect_mcq_pattern, the simple parser)
  * backend/app/main.py           (the /process-image handler's structuring loop)

Text is modelled as `List Char`.  Python's `str.strip()` becomes `pyStrip`,
`str.split('\n')` becomes `splitNl`, and the two regular expressions of
ocr.py are compiled by hand into the deterministic matchers `optMatch` and
`qstartMatch` (Python's backtracking is resolved statically: the character
classes involved are disjoint, so greedy matching is deterministic; this is
argued case by case in the comments).
-/
import Mathlib

namespace SnapQuizzer

/-- Python `\s` (ASCII part) and the whitespace set of `str.strip()`:
space, tab, newline, carriage return, vertical tab, form feed.
(Non-ASCII unicode whitespace is not modelled.) -/
def isPySpace (c : Char) : Bool :=
  c = ' ' || c = '\t' || c = '\n' || c = '\r' || c = '\x0b' || c = '\x0c'

/-- Python `str.strip()`: drop leading and trailing whitespace. -/
def pyStrip (cs : List Char) : List Char :=
  ((cs.dropWhile isPySpace).reverse.dropWhile isPySpace).reverse

/-- Python `str.split('\n')`: split at every newline, keeping empty pieces.
`splitNl` never returns the empty list (as in Python, `"".split('\n') == ['']`). -/
def splitNl : List Char → List (List Char)
  | [] => [[]]
  | c :: cs =>
    if c = '\n' then [] :: splitNl cs
    else
      match splitNl cs with
      | [] => [[c]]
      | l :: ls => (c :: l) :: ls

/-- Python `'\n'.join(lines)`. -/
def joinNl : List (List Char) → List Char
  | [] => []
  | [l] => l
  | l :: l2 :: ls => l ++ '\n' :: joinNl (l2 :: ls)

/-! ## The elaborate parser: backend/app/ocr.py, OCRService.parse_mcq -/

/-- The label class of OPTION_PATTERN: `[a-eA-E]` or `[1-4]`. -/
def isOptLabel (c : Char) : Bool :=
  ('a' ≤ c && c ≤ 'e') || ('A' ≤ c && c ≤ 'E') || ('1' ≤ c && c ≤ '4')

/-- The delimiter class of OPTION_PATTERN: `[\.\)\]]`. -/
def isOptDelim (c : Char) : Bool := c = '.' || c = ')' || c = ']'

/-- `OPTION_PATTERN = ^[\(\[]?([a-eA-E]|[1-4])[\.\)\]]\s+(.*)` applied with
`re.match`.  On success returns `(group 1, group 2)`.  The optional opening
bracket is deterministic: a bracket character is never a label character, so
if the head is `(` or `[` the only way to match is to consume it. Group 2
starts after the maximal run of whitespace (greedy `\s+`). -/
def optMatch (line : List Char) : Option (Char × List Char) :=
  let rest :=
    match line with
    | c :: cs => if c = '(' || c = '[' then cs else line
    | [] => line
  match rest with
  | c :: d :: r =>
    if isOptLabel c && isOptDelim d then
      match r with
      | [] => none
      | e :: _ => if isPySpace e then some (c, r.dropWhile isPySpace) else none
    else none
  | _ => none

/-- The delimiter class of QUESTION_START_PATTERN: `[\.\)\s]` (note: no `]`). -/
def isQDelim (c : Char) : Bool := c = '.' || c = ')' || isPySpace c

/-- `QUESTION_START_PATTERN = ^(\d+|Q\d*|Q\.)[\.\)\s]+(.*)` applied with
`re.match`; returns group 2 on success.  Backtracking is resolved:
digits are not delimiters, so `\d+` and `Q\d*` must take the maximal digit
run.  The third alternative `Q\.` (Q followed by a literal dot) is subsumed
by `Q\d*` with zero digits followed by `.` from the delimiter class, so it
never matches when `Q\d*` has failed. Group 2 starts after the maximal run
of delimiter-class characters (greedy `[\.\)\s]+`). -/
def qstartMatch (line : List Char) : Option (List Char) :=
  match line with
  | [] => none
  | c :: cs =>
    if c.isDigit then
      match (c :: cs).dropWhile Char.isDigit with
      | [] => none
      | d :: r => if isQDelim d then some ((d :: r).dropWhile isQDelim) else none
    else if c = 'Q' then
      match cs.dropWhile Char.isDigit with
      | [] => none
      | d :: r => if isQDelim d then some ((d :: r).dropWhile isQDelim) else none
    else none

/-- An option record `{"id": ..., "text": ..., "is_correct": False}`. -/
structure Opt where
  id : Char
  text : List Char
  is_correct : Bool
deriving DecidableEq

/-- A question record `{"question_text": ..., "options": [...]}` — used both
for the in-progress accumulator `current_q` and for completed questions. -/
structure Question where
  question_text : List Char
  options : List Opt
deriving DecidableEq

/-- `current_q = {"question_text": "", "options": []}`. -/
def emptyQ : Question := ⟨[], []⟩

/-- Build the appended option record: label uppercased, numeric labels 1–4
remapped through `mapping.get(opt_label, opt_label)`, content stripped. -/
def mkOpt (label : Char) (content : List Char) : Opt :=
  let u := label.toUpper
  let u' :=
    if u.isDigit then
      if u = '1' then 'A'
      else if u = '2' then 'B'
      else if u = '3' then 'C'
      else if u = '4' then 'D'
      else u
    else u
  ⟨u', pyStrip content, false⟩

/-- The question-start / continuation part of the loop body in parse_mcq
(ocr.py lines 118–149): everything after the option branch, before the
safety check. -/
def stepQC (qs : List Question) (cur : Question) (line : List Char) :
    List Question × Question :=
  let qm := qstartMatch line
  if qm.isSome ∨ (15 < line.length ∧ cur.options = []) then
    let p1 :=
      if cur.question_text ≠ [] ∧ 2 ≤ cur.options.length then (qs ++ [cur], emptyQ)
      else (qs, cur)
    match qm with
    | some g2 =>
      if p1.2.question_text = [] ∨ p1.2.options ≠ [] then
        (p1.1, ⟨pyStrip g2, []⟩)
      else
        (p1.1, ⟨p1.2.question_text ++ ' ' :: line, p1.2.options⟩)
    | none =>
      if p1.2.question_text ≠ [] then
        (p1.1, ⟨p1.2.question_text ++ ' ' :: line, p1.2.options⟩)
      else
        (p1.1, ⟨line, p1.2.options⟩)
  else (qs, cur)

/-- The safety check of parse_mcq (ocr.py lines 151–155): with 4 or more
accumulated options, flush. -/
def safetyFlush (p : List Question × Question) : List Question × Question :=
  if 4 ≤ p.2.options.length then (p.1 ++ [p.2], emptyQ) else p

/-- Loop body for a line that is not recorded as an option. -/
def processLineNoOpt (qs : List Question) (cur : Question) (line : List Char) :
    List Question × Question :=
  safetyFlush (stepQC qs cur line)

/-- The whole loop body of parse_mcq for one line.  A line matching
OPTION_PATTERN with a non-empty current question text is appended as an
option and the loop `continue`s — in particular the safety check is NOT
executed on that line. -/
def processLine (qs : List Question) (cur : Question) (line : List Char) :
    List Question × Question :=
  match optMatch line with
  | some (lab, cont) =>
    if cur.question_text ≠ [] then
      (qs, ⟨cur.question_text, cur.options ++ [mkOpt lab cont]⟩)
    else processLineNoOpt qs cur line
  | none => processLineNoOpt qs cur line

/-- `[line.strip() for line in text.split('\n') if line.strip()]`. -/
def normLines (t : List Char) : List (List Char) :=
  ((splitNl t).map pyStrip).filter (fun l => !l.isEmpty)

/-- The loop of parse_mcq over already-normalized lines, plus the final
flush (`if current_q["question_text"] and len(options) >= 2`). -/
def parseLines (ls : List (List Char)) : List Question :=
  let p := ls.foldl (fun st l => processLine st.1 st.2 l) ([], emptyQ)
  if p.2.question_text ≠ [] ∧ 2 ≤ p.2.options.length then p.1 ++ [p.2] else p.1

/-- `OCRService.parse_mcq` (ocr.py lines 82–162). -/
def parse_mcq (t : List Char) : List Question := parseLines (normLines t)

/-! ## The simple parser: backend/app/ocr_processor.py, detect_mcq_pattern -/

/-- `line.startswith('Q') or line.startswith('Question') or
(line[0].isdigit() and ('.' in line or ')' in line)) or len(line) > 30`
(ocr_processor.py lines 71–74; note Python precedence: `and` binds tighter
than `or`). Only ever applied to non-empty stripped lines. -/
def isQuestionLine (line : List Char) : Bool :=
  ['Q'].isPrefixOf line || "Question".toList.isPrefixOf line ||
    ((match line with | c :: _ => c.isDigit | [] => false) &&
      (line.contains '.' || line.contains ')')) ||
    decide (30 < line.length)

/-- The sixteen literal starts accepted by the inner option loop
(ocr_processor.py lines 90–91). -/
def optionStarts : List (List Char) :=
  (["A)", "B)", "C)", "D)", "a)", "b)", "c)", "d)",
    "A.", "B.", "C.", "D.", "a.", "b.", "c.", "d."].map String.toList)

def isOptionLine (l : List Char) : Bool := optionStarts.any (fun p => p.isPrefixOf l)

/-- A detected MCQ `{'question': ..., 'options': [...]}`. -/
structure MCQ where
  question : List Char
  options : List (List Char)
deriving DecidableEq

/-- One pass over the lines of detect_mcq_pattern.  The Boolean flag records
whether control sits inside the inner option-collecting loop (which consumes
every following line — stripping it and appending it when it starts like an
option — until four options are held or the input ends; when it stops
because four options are held, the stopping line is handled by the outer
loop, which is the `inInner && options.length < 4` guard below). -/
def detectGo : List (List Char) → Bool → List Char → List (List Char) → List MCQ → List MCQ
  | [], _, cur, opts, acc =>
    if cur ≠ [] ∧ opts ≠ [] then acc ++ [⟨cur, opts⟩] else acc
  | l :: rest, inInner, cur, opts, acc =>
    if inInner && opts.length < 4 then
      let ol := pyStrip l
      detectGo rest true cur (if isOptionLine ol then opts ++ [ol] else opts) acc
    else
      let line := pyStrip l
      if line = [] then detectGo rest false cur opts acc
      else if isQuestionLine line then
        detectGo rest true line []
          (if cur ≠ [] ∧ opts ≠ [] then acc ++ [⟨cur, opts⟩] else acc)
      else detectGo rest false cur opts acc

/-- `OCRProcessor.detect_mcq_pattern` (ocr_processor.py lines 55–104). -/
def detect_mcq_pattern (t : List Char) : List MCQ :=
  detectGo (splitNl t) false [] [] []

/-! ## The /process-image handler: backend/app/main.py, process_image -/

/-- One structured question of the response (confidence_score, a constant
float 0.8, is not modelled). -/
structure StructuredQ where
  question_text : List Char
  options : List Opt
  predicted_answer : List Char
  explanation : List Char
deriving DecidableEq

structure ProcessImageResponse where
  success : Bool
  error : Option (List Char)
  extracted_text : Option (List Char)
  processed_questions : List StructuredQ
  total_questions : Option Nat
deriving DecidableEq

/-- `opt_id = opt[0].upper() if opt else 'A'; opt_text = opt[2:] if len(opt) > 2 else opt`
(main.py lines 70–79). -/
def structureOption (opt : List Char) : Opt :=
  ⟨(match opt with | c :: _ => c.toUpper | [] => 'A'),
   (if 2 < opt.length then opt.drop 2 else opt), false⟩

/-- Structure one detected MCQ, marking the first option correct and
predicting it (main.py lines 60–84). -/
def structureMCQ (m : MCQ) : StructuredQ :=
  match m.options.map structureOption with
  | [] => ⟨m.question, [], [], "AI-generated explanation".toList⟩
  | o :: rest =>
    ⟨m.question, ⟨o.id, o.text, true⟩ :: rest, [o.id], "AI-generated explanation".toList⟩

def noTextError : List Char := "No text could be extracted from the image".toList

/-- `process_image` (main.py lines 41–100), parameterized by the text the
external OCR engine extracted.  On empty text the handler returns the
structured failure dictionary; otherwise it structures the detected MCQs.
No path raises: the embedding is a total function. -/
def process_image (extracted_text : List Char) : ProcessImageResponse :=
  if extracted_text = [] then
    ⟨false, some noTextError, none, [], none⟩
  else
    let ps := (detect_mcq_pattern extracted_text).map structureMCQ
    ⟨true, none, some extracted_text, ps, some ps.length⟩

/-! ## Concrete inputs used in the statements -/

/-- Scenario A of the spec. -/
def scenarioA : List Char := "1. What is 2+2?\nA) 3\nB) 4\nC) 5\nD) 6".toList

/-- The question Scenario A is expected to produce. -/
def scenarioAQuestion : Question :=
  ⟨"What is 2+2?".toList,
   [⟨'A', "3".toList, false⟩, ⟨'B', "4".toList, false⟩,
    ⟨'C', "5".toList, false⟩, ⟨'D', "6".toList, false⟩]⟩

/-- Scenario B of the spec. -/
def scenarioB : List Char := "108. Capital of France?\n1. Paris\n2. London".toList

/-- The question Scenario B is expected to produce. -/
def scenarioBQuestion : Question :=
  ⟨"Capital of France?".toList,
   [⟨'A', "Paris".toList, false⟩, ⟨'B', "London".toList, false⟩]⟩

/-- A question followed by five consecutive option lines. -/
def fiveOptionInput : List Char :=
  "1. Which number is prime?\nA) 1\nB) 2\nC) 3\nD) 4\nE) 5".toList

/-- Four already-accumulated options. -/
def fourOpts : List Opt :=
  [⟨'A', "1".toList, false⟩, ⟨'B', "2".toList, false⟩,
   ⟨'C', "3".toList, false⟩, ⟨'D', "4".toList, false⟩]

/-- A long question line followed by a single option line, for the
/process-image code path. -/
def c10Input : List Char :=
  "What is the capital city of France today?\nA) Paris".toList

/-! ## Predicates used by the statements -/

/-- The emission invariant of the spec: non-empty text and at least two
options. -/
def GoodQ (q : Question) : Prop := q.question_text ≠ [] ∧ 2 ≤ q.options.length

/-- Invariant carried through the fold of parse_mcq: every already-emitted
question is good, and the accumulator never holds options without text. -/
def InvState (s : List Question × Question) : Prop :=
  (∀ q ∈ s.1, GoodQ q) ∧ (s.2.options ≠ [] → s.2.question_text ≠ [])

/-! ## Branch characterizations of the parse_mcq loop body -/

theorem processLine_option {line : List Char} {lab : Char} {cont : List Char}
    (qs : List Question) (cur : Question)
    (h : optMatch line = some (lab, cont)) (ht : cur.question_text ≠ []) :
    processLine qs cur line = (qs, ⟨cur.question_text, cur.options ++ [mkOpt lab cont]⟩) := by
  simp [processLine, h, ht]

theorem processLine_noOpt_of_none {line : List Char} (qs : List Question) (cur : Question)
    (h : optMatch line = none) :
    processLine qs cur line = processLineNoOpt qs cur line := by
  simp [processLine, h]

theorem processLine_noOpt_of_empty {line : List Char} (qs : List Question) (cur : Question)
    (ht : cur.question_text = []) :
    processLine qs cur line = processLineNoOpt qs cur line := by
  cases hm : optMatch line with
  | none => simp [processLine, hm]
  | some p => cases p with
    | mk lab cont => simp [processLine, hm, ht]

theorem stepQC_none_skip {line : List Char} (qs : List Question) (cur : Question)
    (hq : qstartMatch line = none) (hc : ¬(15 < line.length ∧ cur.options = [])) :
    stepQC qs cur line = (qs, cur) := by
  simp [stepQC, hq, hc]

theorem stepQC_cont_append {line : List Char} (qs : List Question) (cur : Question)
    (hq : qstartMatch line = none) (hlen : 15 < line.length)
    (hopts : cur.options = []) (ht : cur.question_text ≠ []) :
    stepQC qs cur line = (qs, ⟨cur.question_text ++ ' ' :: line, []⟩) := by
  simp [stepQC, hq, hlen, hopts, ht]

theorem stepQC_cont_set {line : List Char} (qs : List Question) (cur : Question)
    (hq : qstartMatch line = none) (hlen : 15 < line.length)
    (hopts : cur.options = []) (ht : cur.question_text = []) :
    stepQC qs cur line = (qs, ⟨line, []⟩) := by
  simp [stepQC, hq, hlen, hopts, ht]

theorem stepQC_start_flush {line g2 : List Char} (qs : List Question) (cur : Question)
    (hq : qstartMatch line = some g2)
    (ht : cur.question_text ≠ []) (ho : 2 ≤ cur.options.length) :
    stepQC qs cur line = (qs ++ [cur], ⟨pyStrip g2, []⟩) := by
  simp [stepQC, hq, ht, ho, emptyQ]

theorem stepQC_start_new {line g2 : List Char} (qs : List Question) (cur : Question)
    (hq : qstartMatch line = some g2)
    (hr : ¬(cur.question_text ≠ [] ∧ 2 ≤ cur.options.length))
    (hb : cur.question_text = [] ∨ cur.options ≠ []) :
    stepQC qs cur line = (qs, ⟨pyStrip g2, []⟩) := by
  simp [stepQC, hq, hr, hb]

theorem stepQC_start_absorb {line g2 : List Char} (qs : List Question) (cur : Question)
    (hq : qstartMatch line = some g2)
    (ht : cur.question_text ≠ []) (ho : cur.options = []) :
    stepQC qs cur line = (qs, ⟨cur.question_text ++ ' ' :: line, []⟩) := by
  have hr : ¬(cur.question_text ≠ [] ∧ 2 ≤ cur.options.length) := by
    simp [ho]
  simp [stepQC, hq, hr, ht, ho]

theorem safetyFlush_lt (p : List Question × Question) (h : p.2.options.length < 4) :
    safetyFlush p = p := by
  simp [safetyFlush, Nat.not_le.mpr h]

theorem safetyFlush_ge (p : List Question × Question) (h : 4 ≤ p.2.options.length) :
    safetyFlush p = (p.1 ++ [p.2], emptyQ) := by
  simp [safetyFlush, h]

/-! ## The emission invariant -/

theorem invState_stepQC {qs : List Question} {cur : Question} {line : List Char}
    (h : InvState (qs, cur)) : InvState (stepQC qs cur line) := by
  obtain ⟨h1, h2⟩ := h
  cases hq : qstartMatch line with
  | none =>
    by_cases hc : 15 < line.length ∧ cur.options = []
    · obtain ⟨hlen, hopts⟩ := hc
      by_cases ht : cur.question_text = []
      · rw [stepQC_cont_set qs cur hq hlen hopts ht]
        exact ⟨h1, by simp⟩
      · rw [stepQC_cont_append qs cur hq hlen hopts ht]
        exact ⟨h1, fun _ => by simp⟩
    · rw [stepQC_none_skip qs cur hq hc]
      exact ⟨h1, h2⟩
  | some g2 =>
    by_cases hready : cur.question_text ≠ [] ∧ 2 ≤ cur.options.length
    · rw [stepQC_start_flush qs cur hq hready.1 hready.2]
      refine ⟨?_, by simp⟩
      intro q hqmem
      rcases List.mem_append.mp hqmem with hqs | hcur
      · exact h1 q hqs
      · rw [List.mem_singleton.mp hcur]; exact hready
    · by_cases hb : cur.question_text = [] ∨ cur.options ≠ []
      · rw [stepQC_start_new qs cur hq hready hb]
        exact ⟨h1, by simp⟩
      · push_neg at hb
        rw [stepQC_start_absorb qs cur hq hb.1 (by simpa using hb.2)]
        exact ⟨h1, fun _ => by simp⟩

theorem invState_safetyFlush {p : List Question × Question}
    (h : InvState p) : InvState (safetyFlush p) := by
  by_cases h4 : 4 ≤ p.2.options.length
  · rw [safetyFlush_ge p h4]
    refine ⟨?_, by simp [emptyQ]⟩
    intro q hqmem
    rcases List.mem_append.mp hqmem with hqs | hcur
    · exact h.1 q hqs
    · rw [List.mem_singleton.mp hcur]
      refine ⟨h.2 ?_, le_trans (by norm_num) h4⟩
      intro hnil
      rw [hnil] at h4
      simp at h4
  · rw [safetyFlush_lt p (Nat.not_le.mp h4)]
    exact h

theorem invState_processLine {qs : List Question} {cur : Question} {line : List Char}
    (h : InvState (qs, cur)) : InvState (processLine qs cur line) := by
  cases hm : optMatch line with
  | none =>
    rw [processLine_noOpt_of_none qs cur hm]
    exact invState_safetyFlush (invState_stepQC h)
  | some p =>
    obtain ⟨lab, cont⟩ := p
    by_cases ht : cur.question_text = []
    · rw [processLine_noOpt_of_empty qs cur ht]
      exact invState_safetyFlush (invState_stepQC h)
    · rw [processLine_option qs cur hm ht]
      exact ⟨h.1, fun _ => ht⟩

theorem invState_foldl (ls : List (List Char)) (st : List Question × Question)
    (h : InvState st) :
    InvState (ls.foldl (fun st l => processLine st.1 st.2 l) st) := by
  induction ls generalizing st with
  | nil => exact h
  | cons l ls ih =>
    refine ih _ ?_
    obtain ⟨qs, cur⟩ := st
    exact invState_processLine h

theorem normLines_ne_nil (t : List Char) : ∀ l ∈ normLines t, l ≠ [] := by
  intro l hl
  have := (List.mem_filter.mp hl).2
  simpa [List.isEmpty_iff] using this

/-! ## Normalization lemmas (for idempotence) -/

theorem dropWhile_idem (p : Char → Bool) :
    ∀ l : List Char, (l.dropWhile p).dropWhile p = l.dropWhile p
  | [] => rfl
  | c :: cs => by
    by_cases h : p c = true
    · simp [List.dropWhile_cons, h, dropWhile_idem p cs]
    · simp [List.dropWhile_cons, h]

theorem rstripPart_isPrefix (x : List Char) :
    (x.reverse.dropWhile isPySpace).reverse <+: x := by
  have h1 : x.reverse.dropWhile isPySpace <:+ x.reverse := List.dropWhile_suffix _
  have h2 : ((x.reverse.dropWhile isPySpace).reverse).reverse <:+ x.reverse := by
    simpa using h1
  exact List.reverse_suffix.mp h2

theorem dropWhile_fixed_of_prefix {p : Char → Bool} {y x : List Char}
    (hyx : y <+: x) (hx : x.dropWhile p = x) : y.dropWhile p = y := by
  cases y with
  | nil => rfl
  | cons c t =>
    have hcx : ∃ s, x = c :: s := by
      obtain ⟨r, hr⟩ := hyx
      exact ⟨t ++ r, by rw [← hr]; rfl⟩
    obtain ⟨s, hs⟩ := hcx
    have hpc : p c = false := by
      by_contra hpc
      have hpc' : p c = true := by
        cases hv : p c with
        | false => exact absurd hv hpc
        | true => rfl
      rw [hs, List.dropWhile_cons, if_pos hpc'] at hx
      have hlen : (s.dropWhile p).length ≤ s.length :=
        (List.dropWhile_suffix p).sublist.length_le
      rw [hx] at hlen
      simp at hlen
    simp [List.dropWhile_cons, hpc]

theorem pyStrip_lstrip_fixed (l : List Char) :
    (pyStrip l).dropWhile isPySpace = pyStrip l := by
  unfold pyStrip
  exact dropWhile_fixed_of_prefix (rstripPart_isPrefix (l.dropWhile isPySpace))
    (dropWhile_idem isPySpace l)

theorem pyStrip_idem (l : List Char) : pyStrip (pyStrip l) = pyStrip l := by
  have h0 : pyStrip (pyStrip l) =
      (((pyStrip l).dropWhile isPySpace).reverse.dropWhile isPySpace).reverse := rfl
  rw [h0, pyStrip_lstrip_fixed l]
  have h2 : pyStrip l = ((l.dropWhile isPySpace).reverse.dropWhile isPySpace).reverse := rfl
  rw [h2, List.reverse_reverse, dropWhile_idem]

theorem mem_pyStrip {c : Char} {l : List Char} (h : c ∈ pyStrip l) : c ∈ l := by
  unfold pyStrip at h
  have h2 := (rstripPart_isPrefix (l.dropWhile isPySpace)).subset h
  exact (List.dropWhile_suffix isPySpace).subset h2

theorem splitNl_ne_nil : ∀ t : List Char, splitNl t ≠ []
  | [] => by simp [splitNl]
  | c :: cs => by
    by_cases h : c = '\n'
    · simp [splitNl, h]
    · have := splitNl_ne_nil cs
      cases hs : splitNl cs with
      | nil => exact absurd hs this
      | cons l ls => simp [splitNl, h, hs]

theorem splitNl_no_newline : ∀ (t : List Char), ∀ l ∈ splitNl t, '\n' ∉ l
  | [], l, hl => by
    simp [splitNl] at hl
    simp [hl]
  | c :: cs, l, hl => by
    by_cases h : c = '\n'
    · rw [splitNl, if_pos h] at hl
      rcases List.mem_cons.mp hl with h1 | h1
      · simp [h1]
      · exact splitNl_no_newline cs l h1
    · rw [splitNl, if_neg h] at hl
      cases hs : splitNl cs with
      | nil => exact absurd hs (splitNl_ne_nil cs)
      | cons m ms =>
        rw [hs] at hl
        rcases List.mem_cons.mp hl with h1 | h1
        · subst h1
          intro hmem
          rcases List.mem_cons.mp hmem with h2 | h2
          · exact h h2.symm
          · exact splitNl_no_newline cs m (by simp [hs]) h2
        · exact splitNl_no_newline cs l (by simp [hs, h1])

theorem splitNl_single : ∀ {x : List Char}, '\n' ∉ x → splitNl x = [x]
  | [], _ => rfl
  | c :: cs, h => by
    have hc : ¬(c = '\n') := fun hc => h (by simp [hc])
    have hcs : '\n' ∉ cs := fun hm => h (List.mem_cons_of_mem _ hm)
    rw [splitNl, if_neg hc, splitNl_single hcs]

theorem splitNl_append {x : List Char} (r : List Char) (h : '\n' ∉ x) :
    splitNl (x ++ '\n' :: r) = x :: splitNl r := by
  induction x with
  | nil => simp [splitNl]
  | cons c cs ih =>
    have hc : ¬(c = '\n') := fun hc => h (by simp [hc])
    have hcs : '\n' ∉ cs := fun hm => h (List.mem_cons_of_mem _ hm)
    rw [List.cons_append, splitNl, if_neg hc, ih hcs]

theorem splitNl_joinNl : ∀ (ls : List (List Char)), (∀ l ∈ ls, '\n' ∉ l) → ls ≠ [] →
    splitNl (joinNl ls) = ls
  | [], _, hne => absurd rfl hne
  | [l], h, _ => by
    rw [joinNl, splitNl_single (h l (by simp))]
  | l :: l2 :: ls, h, _ => by
    rw [joinNl, splitNl_append _ (h l (by simp)),
      splitNl_joinNl (l2 :: ls) (fun m hm => h m (List.mem_cons_of_mem _ hm)) (by simp)]

theorem map_id_of_mem {α : Type} {f : α → α} :
    ∀ {l : List α}, (∀ a ∈ l, f a = a) → l.map f = l
  | [], _ => rfl
  | a :: as, h => by
    rw [List.map_cons, h a (by simp), map_id_of_mem (fun b hb => h b (by simp [hb]))]

theorem mem_normLines {l : List Char} {t : List Char} (h : l ∈ normLines t) :
    pyStrip l = l ∧ '\n' ∉ l := by
  have h1 := (List.mem_filter.mp h).1
  obtain ⟨m, hm, hml⟩ := List.mem_map.mp h1
  constructor
  · rw [← hml, pyStrip_idem]
  · intro hmem
    rw [← hml] at hmem
    exact splitNl_no_newline t m hm (mem_pyStrip hmem)

theorem normLines_joinNl (t : List Char) :
    normLines (joinNl (normLines t)) = normLines t := by
  by_cases h : normLines t = []
  · rw [h]
    rfl
  · have hsplit : splitNl (joinNl (normLines t)) = normLines t :=
      splitNl_joinNl _ (fun l hl => (mem_normLines hl).2) h
    unfold normLines at hsplit ⊢
    rw [hsplit]
    rw [map_id_of_mem (fun l hl => (mem_normLines (t := t) (by rw [normLines]; exact hl)).1)]
    exact List.filter_eq_self.mpr (fun a ha => (List.mem_filter.mp ha).2)

/-- The label stored by `mkOpt`, written as the flat uppercase-then-table
chain of the spec. -/
theorem mkOpt_eq (lab : Char) (cont : List Char) :
    mkOpt lab cont =
      ⟨(if lab.toUpper = '1' then 'A' else if lab.toUpper = '2' then 'B'
        else if lab.toUpper = '3' then 'C' else if lab.toUpper = '4' then 'D'
        else lab.toUpper), pyStrip cont, false⟩ := by
  by_cases hd : lab.toUpper.isDigit = true
  · simp [mkOpt, hd]
  · have h1 : ¬(lab.toUpper = '1') := fun h => hd (by rw [h]; decide)
    have h2 : ¬(lab.toUpper = '2') := fun h => hd (by rw [h]; decide)
    have h3 : ¬(lab.toUpper = '3') := fun h => hd (by rw [h]; decide)
    have h4 : ¬(lab.toUpper = '4') := fun h => hd (by rw [h]; decide)
    simp [mkOpt, hd, h1, h2, h3, h4]

/-! ## The claims -/

/-- C1: for every input text, every question in the sequence returned by
parse_mcq has non-empty question text and at least two options; no
under-populated or text-less question is ever present in the result,
including questions emitted by the 4-option safety flush. -/
theorem c1_parse_mcq_emitted_good (t : List Char) :
    ∀ q ∈ parse_mcq t, q.question_text ≠ [] ∧ 2 ≤ q.options.length := by
  intro q hq
  have hinv : InvState
      ((normLines t).foldl (fun st l => processLine st.1 st.2 l) ([], emptyQ)) :=
    invState_foldl _ _ ⟨by simp, by simp [emptyQ]⟩
  simp only [parse_mcq, parseLines] at hq
  set p := (normLines t).foldl (fun st l => processLine st.1 st.2 l) ([], emptyQ) with hp
  by_cases hc : p.2.question_text ≠ [] ∧ 2 ≤ p.2.options.length
  · rw [if_pos hc] at hq
    rcases List.mem_append.mp hq with h1 | h1
    · exact hinv.1 q h1
    · rw [List.mem_singleton.mp h1]
      exact hc
  · rw [if_neg hc] at hq
    exact hinv.1 q hq

theorem c1_parse_mcq_emitted_good_witness :
    scenarioAQuestion ∈ parse_mcq scenarioA ∧
    scenarioAQuestion.question_text ≠ [] ∧ 2 ≤ scenarioAQuestion.options.length :=
  ⟨by decide, c1_parse_mcq_emitted_good scenarioA scenarioAQuestion (by decide)⟩

/-- C2 counterexample: with five consecutive option lines after a question,
the fifth option line IS appended to the prior question (the safety check is
skipped by the option branch's `continue`), so parse_mcq emits a question
with five options — refuting both "immediately flushed" and "no emitted
question has more than 4 options". -/
theorem c2_flush_deferred_cex :
    (parse_mcq fiveOptionInput).map (fun q => q.options.length) = [5] := by decide

/-- C2 (amended): appending an option never flushes, whatever the option
count; a question holding at least 4 options is flushed only while
processing the next line that is not recorded as an option. Consequently a
5th consecutive option line is appended to the prior question and emitted
questions can have more than 4 options. -/
theorem c2_flush_deferred (qs : List Question) (cur : Question) (line : List Char) :
    (∀ lab cont, optMatch line = some (lab, cont) → cur.question_text ≠ [] →
      processLine qs cur line = (qs, ⟨cur.question_text, cur.options ++ [mkOpt lab cont]⟩)) ∧
    (optMatch line = none → 4 ≤ cur.options.length → cur.question_text ≠ [] →
      (processLine qs cur line).1 = qs ++ [cur] ∧ (processLine qs cur line).2.options = []) := by
  constructor
  · intro lab cont h ht
    exact processLine_option qs cur h ht
  · intro hm h4 ht
    rw [processLine_noOpt_of_none qs cur hm]
    unfold processLineNoOpt
    cases hq : qstartMatch line with
    | some g2 =>
      rw [stepQC_start_flush qs cur hq ht (le_trans (by norm_num) h4),
        safetyFlush_lt _ (by simp)]
      simp
    | none =>
      have hc : ¬(15 < line.length ∧ cur.options = []) := by
        rintro ⟨-, h0⟩
        rw [h0] at h4
        simp at h4
      rw [stepQC_none_skip qs cur hq hc, safetyFlush_ge _ h4]
      simp [emptyQ]

theorem c2_flush_deferred_witness :
    processLine [] ⟨"Which number is prime?".toList, fourOpts⟩ ("E) 5".toList) =
      ([], ⟨"Which number is prime?".toList, fourOpts ++ [mkOpt 'E' ("5".toList)]⟩) ∧
    (processLine [] ⟨"Which number is prime?".toList, fourOpts⟩ ("hello".toList)).1 =
      [] ++ [⟨"Which number is prime?".toList, fourOpts⟩] :=
  ⟨(c2_flush_deferred [] ⟨"Which number is prime?".toList, fourOpts⟩ ("E) 5".toList)).1
      'E' ("5".toList) (by decide) (by decide),
   ((c2_flush_deferred [] ⟨"Which number is prime?".toList, fourOpts⟩ ("hello".toList)).2
      (by decide) (by decide) (by decide)).1⟩

/-- C3: Scenario A — on "1. What is 2+2?" followed by "A) 3", "B) 4",
"C) 5", "D) 6", parse_mcq returns exactly one question, with the numbering
prefix stripped from the text and options A:3, B:4, C:5, D:6 in order. -/
theorem c3_parse_mcq_scenarioA : parse_mcq scenarioA = [scenarioAQuestion] := by decide

/-- C4: every line recorded as an option stores the matched label uppercased
with numeric labels remapped through the fixed table 1→A, 2→B, 3→C, 4→D —
a pure function of the line alone, independent of parser state and line
order — and Scenario B produces A:"Paris", B:"London". -/
theorem c4_option_label_mapping :
    (∀ (qs : List Question) (cur : Question) (line : List Char) (lab : Char)
      (cont : List Char), optMatch line = some (lab, cont) → cur.question_text ≠ [] →
      (processLine qs cur line).2.options = cur.options ++
        [⟨(if lab.toUpper = '1' then 'A' else if lab.toUpper = '2' then 'B'
           else if lab.toUpper = '3' then 'C' else if lab.toUpper = '4' then 'D'
           else lab.toUpper), pyStrip cont, false⟩]) ∧
    parse_mcq scenarioB = [scenarioBQuestion] := by
  constructor
  · intro qs cur line lab cont h ht
    rw [processLine_option qs cur h ht, ← mkOpt_eq]
  · decide

theorem c4_option_label_mapping_witness :
    (processLine [] ⟨"Capital of France?".toList, []⟩ ("1. Paris".toList)).2.options =
      [⟨'A', "Paris".toList, false⟩] := by
  have h := c4_option_label_mapping.1 [] ⟨"Capital of France?".toList, []⟩
    ("1. Paris".toList) '1' ("Paris".toList) (by decide) (by decide)
  rw [h]
  decide

/-- C5 counterexample: the line "1. foo" matches the question-start pattern
while the accumulator has non-empty text and no options, yet the parser
records it as option A:"foo" instead of appending the whole line to the
question text — the option check runs first, refuting the claim as stated. -/
theorem c5_midstem_absorb_cex :
    (qstartMatch ("1. foo".toList)).isSome = true ∧
    (processLine [] ⟨"What color?".toList, []⟩ ("1. foo".toList)).2.question_text =
      "What color?".toList ∧
    (processLine [] ⟨"What color?".toList, []⟩ ("1. foo".toList)).2.question_text ≠
      "What color?".toList ++ ' ' :: "1. foo".toList ∧
    (processLine [] ⟨"What color?".toList, []⟩ ("1. foo".toList)).2.options =
      [⟨'A', "foo".toList, false⟩] := by decide

/-- C5 (amended): if a line that is NOT recorded as an option (the option
pattern fails on it) matches the question-start pattern while the current
accumulator has non-empty question text and no options yet, the parser
appends the whole line to the current question text instead of starting a
new question; in particular the mid-stem line "1999 was a good year" is
absorbed as stem continuation. -/
theorem c5_midstem_absorb (qs : List Question) (cur : Question) (line g2 : List Char)
    (hopt : optMatch line = none) (hq : qstartMatch line = some g2)
    (ht : cur.question_text ≠ []) (ho : cur.options = []) :
    processLine qs cur line = (qs, ⟨cur.question_text ++ ' ' :: line, []⟩) := by
  rw [processLine_noOpt_of_none qs cur hopt]
  unfold processLineNoOpt
  rw [stepQC_start_absorb qs cur hq ht ho, safetyFlush_lt _ (by simp)]

theorem c5_midstem_absorb_witness :
    processLine [] ⟨"It is said that".toList, []⟩ ("1999 was a good year".toList) =
      ([], ⟨"It is said that".toList ++ ' ' :: "1999 was a good year".toList, []⟩) :=
  c5_midstem_absorb [] ⟨"It is said that".toList, []⟩ ("1999 was a good year".toList)
    ("was a good year".toList) (by decide) (by decide) (by decide) (by decide)

/-- C6 counterexample: the 5-character line "hello" fits neither pattern and
is silently DROPPED, not absorbed into the current question text — the
continuation rule requires more than 15 characters. -/
theorem c6_unmatched_line_behavior_cex :
    optMatch ("hello".toList) = none ∧ qstartMatch ("hello".toList) = none ∧
    processLine [] ⟨"What is the capital?".toList, []⟩ ("hello".toList) =
      ([], ⟨"What is the capital?".toList, []⟩) ∧
    ("What is the capital?".toList : List Char) ≠
      "What is the capital?".toList ++ ' ' :: "hello".toList := by decide

/-- C6 (amended): a line fitting neither the option pattern nor the
question-start pattern is absorbed into the current question text exactly
when it is longer than 15 characters and the current question has no
options yet; otherwise it is silently ignored (subject only to the ≥4-option
safety flush). No line produces an error: processing is a total function. -/
theorem c6_unmatched_line_behavior (qs : List Question) (cur : Question) (line : List Char)
    (hopt : optMatch line = none) (hq : qstartMatch line = none) :
    processLine qs cur line =
      if 15 < line.length ∧ cur.options = [] then
        (qs, ⟨(if cur.question_text = [] then line else cur.question_text ++ ' ' :: line), []⟩)
      else if 4 ≤ cur.options.length then (qs ++ [cur], emptyQ)
      else (qs, cur) := by
  rw [processLine_noOpt_of_none qs cur hopt]
  unfold processLineNoOpt
  by_cases hc : 15 < line.length ∧ cur.options = []
  · rw [if_pos hc]
    obtain ⟨hlen, ho⟩ := hc
    by_cases ht : cur.question_text = []
    · rw [stepQC_cont_set qs cur hq hlen ho ht, safetyFlush_lt _ (by simp), if_pos ht]
    · rw [stepQC_cont_append qs cur hq hlen ho ht, safetyFlush_lt _ (by simp), if_neg ht]
  · rw [if_neg hc, stepQC_none_skip qs cur hq hc]
    by_cases h4 : 4 ≤ cur.options.length
    · rw [safetyFlush_ge _ h4, if_pos h4]
    · rw [safetyFlush_lt _ (Nat.not_le.mp h4), if_neg h4]

theorem c6_unmatched_line_behavior_witness :
    processLine [] emptyQ ("a reasonably long noise line".toList) =
      ([], ⟨"a reasonably long noise line".toList, []⟩) := by
  have h := c6_unmatched_line_behavior [] emptyQ ("a reasonably long noise line".toList)
    (by decide) (by decide)
  rw [h]
  decide

/-- C7: a line matching the option pattern is recorded as an option only if
the in-progress question already has non-empty question text; with empty
question text the line falls through to the question-start / continuation
logic, and (from an empty accumulator) is never recorded as an option — an
option-shaped line cannot start a question by being consumed as an option. -/
theorem c7_option_requires_text (qs : List Question) (cur : Question) (line : List Char)
    (lab : Char) (cont : List Char) (h : optMatch line = some (lab, cont)) :
    (cur.question_text ≠ [] →
      processLine qs cur line = (qs, ⟨cur.question_text, cur.options ++ [mkOpt lab cont]⟩)) ∧
    (cur.question_text = [] → processLine qs cur line = processLineNoOpt qs cur line) ∧
    (cur.question_text = [] → cur.options = [] →
      (processLine qs cur line).2.options = []) := by
  refine ⟨fun ht => processLine_option qs cur h ht,
    fun ht => processLine_noOpt_of_empty qs cur ht, ?_⟩
  intro ht ho
  rw [processLine_noOpt_of_empty qs cur ht]
  unfold processLineNoOpt
  cases hq : qstartMatch line with
  | some g2 =>
    have hr : ¬(cur.question_text ≠ [] ∧ 2 ≤ cur.options.length) := by simp [ht]
    rw [stepQC_start_new qs cur hq hr (Or.inl ht), safetyFlush_lt _ (by simp)]
  | none =>
    by_cases hlen : 15 < line.length
    · rw [stepQC_cont_set qs cur hq hlen ho ht, safetyFlush_lt _ (by simp)]
    · have hc : ¬(15 < line.length ∧ cur.options = []) := fun hcc => hlen hcc.1
      rw [stepQC_none_skip qs cur hq hc, safetyFlush_lt _ (by simp [ho])]
      exact ho

theorem c7_option_requires_text_witness :
    processLine [] ⟨"What is 2+2?".toList, []⟩ ("A) 4".toList) =
      ([], ⟨"What is 2+2?".toList, [] ++ [mkOpt 'A' ("4".toList)]⟩) :=
  (c7_option_requires_text [] ⟨"What is 2+2?".toList, []⟩ ("A) 4".toList) 'A'
    ("4".toList) (by decide)).1 (by decide)

/-- C8: running parse_mcq on the newline-join of its own normalized lines
(each line stripped, blank lines dropped, order preserved) yields exactly
the same question sequence as running it once on the raw text. -/
theorem c8_parse_mcq_idempotent (t : List Char) :
    parse_mcq (joinNl (normLines t)) = parse_mcq t := by
  unfold parse_mcq
  rw [normLines_joinNl]

/-- C9: when OCR extraction yields empty text, the /process-image handler
returns a structured failure — success false, an error string, an empty
processed_questions list — and, the embedding being a total function, no
exception is raised. -/
theorem c9_process_image_empty_failure :
    (process_image []).success = false ∧
    (process_image []).error = some ("No text could be extracted from the image".toList) ∧
    (process_image []).processed_questions = [] := by decide

/-- C10: the /process-image endpoint's parser detect_mcq_pattern emits a
pending question at end of input whenever its text is non-empty and at
least ONE option was collected, and on a concrete input the endpoint's
processed_questions contains a question with exactly one option — the
at-least-two-options guarantee does not hold on this code path. -/
theorem c10_detect_single_option_emitted :
    (∀ (b : Bool) (cur : List Char) (opts : List (List Char)) (acc : List MCQ),
      detectGo [] b cur opts acc =
        if cur ≠ [] ∧ opts ≠ [] then acc ++ [⟨cur, opts⟩] else acc) ∧
    (process_image c10Input).processed_questions.map (fun q => q.options.length) = [1] ∧
    (process_image c10Input).success = true := by
  refine ⟨fun b cur opts acc => rfl, by decide, by decide⟩

end SnapQuizzer
